import Mathlib

/-!
# Harmonic compatibility engine — verification development

A shallow embedding of the harmonic/tempo compatibility scoring engine
(`backend/services/harmonicCompatibility.js`) together with proofs of its
specified properties.  JavaScript strings become `String`, fields that may be
`undefined`/`null` become `Option`, JavaScript numbers that stay integral
become `Nat`/`Int`, and the weighted-average arithmetic is carried out in `ℚ`
(every score is a multiple of five, so the weighted combination is exact).
-/

namespace Intune

/-- Characters matched by the JavaScript regex class `\s` (ECMAScript
WhiteSpace ∪ LineTerminator); the same set is stripped by `String.prototype.trim`
and by `parseInt`'s leading-whitespace removal. -/
def isJsSpace (c : Char) : Bool :=
  c = ' ' || c = '\t' || c = '\n' || c = '\r' ||
  c = '\x0b' || c = '\x0c' || c = ' ' ||
  c = ' ' || (' ' ≤ c && c ≤ ' ') ||
  c = ' ' || c = ' ' || c = ' ' || c = ' ' ||
  c = '　' || c = '﻿'

/-- `String.prototype.trim`: remove `\s` characters from both ends. -/
def jsTrim (s : String) : String :=
  ⟨((s.data.dropWhile isJsSpace).reverse.dropWhile isJsSpace).reverse⟩

/-- The character class `[A-G]` of the key regex; the regex carries the `i`
flag, so lowercase `a`–`g` also match. -/
def isKeyLetter (c : Char) : Bool :=
  ('A' ≤ c && c ≤ 'G') || ('a' ≤ c && c ≤ 'g')

/-- The character class `[#b]` under the `i` flag: `#`, `b`, and also `B`. -/
def isAccidental (c : Char) : Bool :=
  c = '#' || c = 'b' || c = 'B'

/-- ASCII lowercasing of a character list (`String.prototype.toLowerCase` on
the strings the engine manipulates). -/
def lowerStr (cs : List Char) : List Char :=
  cs.map Char.toLower

/-- The alternation `(major|minor|maj|min|m)` of the key regex, matched
case-insensitively against a whole suffix. -/
def isModeToken (cs : List Char) : Bool :=
  let low := lowerStr cs
  low = "major".data || low = "minor".data || low = "maj".data ||
  low = "min".data || low = "m".data

/-- The `\s*(major|minor|maj|min|m)?$` tail of the key regex, applied after
the note group has consumed its characters: skip whitespace greedily, then
either the end of the string (no mode capture) or a whole mode token. -/
def matchAfterNote (note rest : List Char) : Option (List Char × Option (List Char)) :=
  let after := rest.dropWhile isJsSpace
  if after.isEmpty then some (note, none)
  else if isModeToken after then some (note, some after)
  else none

/-- Matching the anchored regex `/^([A-G][#b]?)\s*(major|minor|maj|min|m)?$/i`
against an (already trimmed) character list; returns the two capture groups,
the note (letter plus optional accidental) and the optional mode token.
The note group is greedy, which is deterministic here: no mode token and no
whitespace begins with `#`, `b`, or `B`, so the accidental never has to be
given back. -/
def matchKeyPattern (cs : List Char) : Option (List Char × Option (List Char)) :=
  match cs with
  | [] => none
  | [c] => if isKeyLetter c then matchAfterNote [c] [] else none
  | c :: d :: rest2 =>
    if isKeyLetter c then
      if isAccidental d then matchAfterNote [c, d] rest2
      else matchAfterNote [c] (d :: rest2)
    else none

/-- Result shape of `parseKey`.  The invalid result carries `none` in every
optional field (the source returns `{ key: null, mode: null, isValid: false }`,
leaving `note` and `circlePosition` absent). -/
structure ParsedKey where
  key : Option String
  note : Option String
  mode : Option String
  isValid : Bool
  circlePosition : Option Nat
deriving DecidableEq, Repr

/-- The `circleOfFifths` lookup table, in the source's insertion order (which
is also the enumeration order of `Object.entries` for these string keys). -/
def circleOfFifthsList : List (String × Nat) :=
  [("C", 0), ("G", 1), ("D", 2), ("A", 3), ("E", 4), ("B", 5),
   ("F#", 6), ("Gb", 6), ("C#", 7), ("Db", 7), ("Ab", 8), ("Eb", 9),
   ("Bb", 10), ("F", 11),
   ("Am", 0), ("Em", 1), ("Bm", 2), ("F#m", 3), ("C#m", 4), ("G#m", 5),
   ("D#m", 6), ("Ebm", 6), ("A#m", 7), ("Bbm", 7), ("Fm", 8), ("Cm", 9),
   ("Gm", 10), ("Dm", 11)]

/-- Property lookup `this.circleOfFifths[k]`; `none` models `undefined`. -/
def circleOfFifths (k : String) : Option Nat :=
  (circleOfFifthsList.find? (fun e => e.1 = k)).map (·.2)

/-- The invalid `parseKey` result. -/
def invalidParsedKey : ParsedKey :=
  ⟨none, none, none, false, none⟩

/-- `parseKey`: parse a key string into components.  The argument is an
`Option` because callers feed it possibly-`undefined` fields; `!keyString`
is true exactly for `undefined`/`null`/`""`. -/
def parseKey (keyString : Option String) : ParsedKey :=
  match keyString with
  | none => invalidParsedKey
  | some s =>
    if s = "" || s = "Unknown" then invalidParsedKey
    else
      let normalized := jsTrim s
      match matchKeyPattern normalized.data with
      | none => invalidParsedKey
      | some (noteRaw, modeRaw) =>
        let nm : List Char × List Char :=
          match modeRaw with
          | none =>
            if noteRaw.getLast? = some 'm' then (noteRaw.dropLast, "minor".data)
            else (noteRaw, "major".data)
          | some m => (noteRaw, m)
        let mode0 := lowerStr nm.2
        let mode1 := if mode0 = "maj".data then "major".data else mode0
        let mode2 :=
          if mode1 = "min".data || mode1 = "m".data then "minor".data else mode1
        let note := nm.1
        let normalizedKey :=
          if mode2 = "minor".data then note ++ "m".data else note
        { key := some ⟨normalizedKey⟩
          note := some ⟨note⟩
          mode := some ⟨mode2⟩
          isValid := true
          circlePosition := circleOfFifths ⟨normalizedKey⟩ }

/-- A `{compatibility, score, reason}` sub-verdict. -/
structure Compat where
  compatibility : String
  score : Nat
  reason : String
deriving DecidableEq, Repr

/-- The fixed table of relative major/minor pairs from `areRelativeKeys`. -/
def relativePairs : List (String × String) :=
  [("C", "Am"), ("G", "Em"), ("D", "Bm"), ("A", "F#m"), ("E", "C#m"),
   ("B", "G#m"), ("F#", "D#m"), ("Gb", "Ebm"), ("C#", "A#m"), ("Db", "Bbm"),
   ("Ab", "Fm"), ("Eb", "Cm"), ("Bb", "Gm"), ("F", "Dm")]

/-- `areRelativeKeys`: the pair of canonical identities occurs, in either
order, in the fixed relative-pairs table. -/
def areRelativeKeys (parsed1 parsed2 : ParsedKey) : Bool :=
  relativePairs.any (fun p =>
    (parsed1.key == some p.1 && parsed2.key == some p.2) ||
    (parsed1.key == some p.2 && parsed2.key == some p.1))

/-- `areParallelKeys`: same root note, different mode. -/
def areParallelKeys (parsed1 parsed2 : ParsedKey) : Bool :=
  parsed1.note == parsed2.note && parsed1.mode != parsed2.mode

/-- `calculateCircleDistance`: circular distance on the 12-position wheel. -/
def calculateCircleDistance (pos1 pos2 : Nat) : Nat :=
  let distance := ((pos1 : Int) - (pos2 : Int)).natAbs
  min distance (12 - distance)

/-- `calculateKeyCompatibility`: the first-match-wins cascade. -/
def calculateKeyCompatibility (key1 key2 : Option String) : Compat :=
  let parsed1 := parseKey key1
  let parsed2 := parseKey key2
  if !parsed1.isValid || !parsed2.isValid then
    ⟨"unknown", 0, "Invalid key data"⟩
  else if parsed1.key == parsed2.key then
    ⟨"perfect", 100, "Same key"⟩
  else if areRelativeKeys parsed1 parsed2 then
    ⟨"excellent", 95, "Relative major/minor keys"⟩
  else if areParallelKeys parsed1 parsed2 then
    ⟨"very-good", 85, "Parallel major/minor keys"⟩
  else
    match parsed1.circlePosition, parsed2.circlePosition with
    | some p1, some p2 =>
      let distance := calculateCircleDistance p1 p2
      if distance = 1 then ⟨"good", 80, "Adjacent keys in circle of fifths"⟩
      else if distance = 2 then ⟨"fair", 60, "Two steps apart in circle of fifths"⟩
      else if distance = 3 then
        ⟨"acceptable", 40, "Three steps apart in circle of fifths"⟩
      else ⟨"poor", 20, "Keys are not harmonically related"⟩
    | _, _ => ⟨"poor", 20, "Keys are not harmonically related"⟩

/-- Decimal digit. -/
def isDecDigit (c : Char) : Bool :=
  '0' ≤ c && c ≤ '9'

/-- Hexadecimal digit. -/
def isHexDigit (c : Char) : Bool :=
  isDecDigit c || ('a' ≤ c && c ≤ 'f') || ('A' ≤ c && c ≤ 'F')

/-- Numeric value of a digit character. -/
def digitVal (c : Char) : Nat :=
  if isDecDigit c then c.toNat - '0'.toNat
  else if 'a' ≤ c && c ≤ 'f' then c.toNat - 'a'.toNat + 10
  else c.toNat - 'A'.toNat + 10

/-- Value of a digit string in the given base. -/
def digitsVal (base : Nat) (cs : List Char) : Nat :=
  cs.foldl (fun acc c => acc * base + digitVal c) 0

/-- ECMAScript `parseInt(string)` with no radix argument: strip leading
whitespace, optional sign, optional `0x`/`0X` prefix selecting base 16
(otherwise base 10), then the longest prefix of digits; no digits → `NaN`,
modelled as `none`.  (The engine's BPM values are small, so the `Number`
rounding of very long digit strings is not modelled.) -/
def jsParseIntStr (s : String) : Option Int :=
  let cs := s.data.dropWhile isJsSpace
  let sp : Int × List Char :=
    match cs with
    | '-' :: r => (-1, r)
    | '+' :: r => (1, r)
    | _ => (1, cs)
  let br : Nat × List Char :=
    match sp.2 with
    | '0' :: 'x' :: r => (16, r)
    | '0' :: 'X' :: r => (16, r)
    | _ => (10, sp.2)
  let digits := br.2.takeWhile (if br.1 = 16 then isHexDigit else isDecDigit)
  if digits.isEmpty then none
  else some (sp.1 * (digitsVal br.1 digits : Int))

/-- `parseInt` applied to a possibly-`undefined` field (`parseInt(undefined)`
is `NaN`). -/
def jsParseInt (s : Option String) : Option Int :=
  match s with
  | none => none
  | some str => jsParseIntStr str

/-- `calculateBpmCompatibility`.  The ratio tests are carried out in `ℚ`;
on the engine's integer BPM values the double-precision comparisons of the
source agree with exact rational arithmetic. -/
def calculateBpmCompatibility (bpm1 bpm2 : Option String) : Compat :=
  match jsParseInt bpm1, jsParseInt bpm2 with
  | some num1, some num2 =>
    let difference : Nat := (num1 - num2).natAbs
    if difference = 0 then ⟨"perfect", 100, "Exact BPM match"⟩
    else
      let ratio1 : ℚ := (num1 : ℚ) / (num2 : ℚ)
      let ratio2 : ℚ := (num2 : ℚ) / (num1 : ℚ)
      if |ratio1 - 2| < 1/10 ∨ |ratio2 - 2| < 1/10 then
        ⟨"excellent", 90, "Half/double BPM relationship"⟩
      else if |ratio1 - 3/2| < 1/10 ∨ |ratio2 - 3/2| < 1/10 then
        ⟨"good", 75, "3/2 BPM relationship"⟩
      else if difference ≤ 5 then
        ⟨"excellent", 95, s!"Within 5 BPM ({difference} BPM difference)"⟩
      else if difference ≤ 10 then
        ⟨"good", 80, s!"Within 10 BPM ({difference} BPM difference)"⟩
      else if difference ≤ 20 then
        ⟨"fair", 60, s!"Within 20 BPM ({difference} BPM difference)"⟩
      else if difference ≤ 40 then
        ⟨"acceptable", 40, s!"{difference} BPM difference"⟩
      else ⟨"poor", 20, s!"Large BPM difference ({difference} BPM)"⟩
  | _, _ => ⟨"unknown", 0, "Invalid BPM data"⟩

/-- The `{key, bpm}` pair the scorer reads from a track. -/
structure TrackKB where
  key : Option String
  bpm : Option String
deriving DecidableEq, Repr

/-- The `overall` part of a verdict (its `score` is `Math.round`ed, hence an
integer). -/
structure OverallInfo where
  compatibility : String
  score : Int
  description : String
deriving DecidableEq, Repr

/-- A full compatibility verdict. -/
structure OverallResult where
  overall : OverallInfo
  key : Compat
  bpm : Compat
  mixing_advice : List String
deriving DecidableEq, Repr

/-- `Math.round`: round half towards positive infinity. -/
def jsRound (q : ℚ) : Int :=
  ⌊q + 1/2⌋

/-- `getCompatibilityDescription`: fixed lookup with an unknown fallback. -/
def getCompatibilityDescription (compatibility : String) : String :=
  if compatibility = "excellent" then "🎯 Perfect for mixing - seamless transition"
  else if compatibility = "very-good" then "✅ Great compatibility - smooth mixing"
  else if compatibility = "good" then "👍 Good match - will mix well together"
  else if compatibility = "fair" then "⚖️ Decent compatibility - requires some skill"
  else if compatibility = "acceptable" then "⚠️ Challenging but possible to mix"
  else if compatibility = "poor" then "❌ Difficult to mix harmonically"
  else "❓ Unknown compatibility"

/-- `String.prototype.includes`: substring test. -/
def jsIncludes (s sub : String) : Bool :=
  s.data.tails.any (fun t => sub.data.isPrefixOf t)

/-- `getMixingAdvice`: exactly one key tip and one tempo tip. -/
def getMixingAdvice (keyCompat bpmCompat : Compat) : List String :=
  let keyAdvice :=
    if keyCompat.score ≥ 80 then
      "🎹 Keys mix naturally - no pitch adjustment needed"
    else if keyCompat.score ≥ 60 then
      "🎹 Keys are related - consider key-lock or harmonic mixing"
    else
      "🎹 Use camelot wheel or key-lock for best results"
  let bpmAdvice :=
    if bpmCompat.score ≥ 90 then
      "🥁 BPMs are perfectly matched for mixing"
    else if bpmCompat.score ≥ 70 then
      "🥁 BPMs are close - minimal tempo adjustment needed"
    else if jsIncludes bpmCompat.reason "double" then
      "🥁 Half/double BPM - perfect for creative transitions"
    else
      "🥁 Use tempo sync or beatmatching for smooth transition"
  [keyAdvice, bpmAdvice]

/-- `calculateOverallCompatibility`: 60/40 weighted blend of the key and
tempo sub-scores, tier thresholds on the blended value, rounded score. -/
def calculateOverallCompatibility (track1 track2 : TrackKB) : OverallResult :=
  let keyCompatibility := calculateKeyCompatibility track1.key track2.key
  let bpmCompatibility := calculateBpmCompatibility track1.bpm track2.bpm
  let overallScore : ℚ :=
    (keyCompatibility.score : ℚ) * (6/10) + (bpmCompatibility.score : ℚ) * (4/10)
  let overallCompatibility :=
    if overallScore ≥ 90 then "excellent"
    else if overallScore ≥ 75 then "very-good"
    else if overallScore ≥ 60 then "good"
    else if overallScore ≥ 40 then "fair"
    else if overallScore ≥ 25 then "acceptable"
    else "poor"
  { overall := { compatibility := overallCompatibility
                 score := jsRound overallScore
                 description := getCompatibilityDescription overallCompatibility }
    key := keyCompatibility
    bpm := bpmCompatibility
    mixing_advice := getMixingAdvice keyCompatibility bpmCompatibility }

/-- A candidate track: the engine reads only `key_info` (possibly absent);
every other field is opaque pass-through data, modelled by `rest`. -/
structure Track (α : Type) where
  key_info : Option TrackKB
  rest : α

/-- A candidate decorated with its verdict (`{ ...track, compatibility_info }`). -/
structure RankedTrack (α : Type) where
  track : Track α
  compatibility_info : OverallResult

/-- `t?.key` / `t?.bpm` optional chaining: an absent `key_info` reads as a
pair of `undefined` fields. -/
def trackKB (t : Option TrackKB) : TrackKB :=
  match t with
  | none => ⟨none, none⟩
  | some kb => kb

/-- `findCompatibleTracks`: score every candidate against the reference, keep
those meeting `minScore`, sort by overall score descending.  The
`Array.prototype.sort` of ECMAScript 2019+ is stable, modelled by
`List.mergeSort`. -/
def findCompatibleTracks {α : Type} (referenceTrack : Track α)
    (candidateTracks : List (Track α)) (minScore : Int) : List (RankedTrack α) :=
  let refKB := trackKB referenceTrack.key_info
  let compatibleTracks := candidateTracks.foldl
    (fun acc track =>
      let compatibility := calculateOverallCompatibility refKB (trackKB track.key_info)
      if compatibility.overall.score ≥ minScore then
        acc ++ [⟨track, compatibility⟩]
      else acc) []
  compatibleTracks.mergeSort
    (fun a b => b.compatibility_info.overall.score ≤ a.compatibility_info.overall.score)

/-- A `{key, reason, score}` suggestion. -/
structure Suggestion where
  key : String
  reason : String
  score : Nat
deriving DecidableEq, Repr

/-- `generateCompatibleSearchSuggestions`: same-position entries (other than
the reference itself) first, then entries at the two adjacent positions,
truncated to ten.  `Object.entries` enumerates `circleOfFifthsList` in
insertion order.  When the reference's `circlePosition` is `undefined` the
source compares numbers against `undefined` and `NaN`, which always fails;
the `Option` lifting reproduces that. -/
def generateCompatibleSearchSuggestions (referenceKey referenceBpm : Option String) :
    List Suggestion :=
  let parsed := parseKey referenceKey
  if !parsed.isValid then []
  else
    let relative := circleOfFifthsList.foldl
      (fun acc e =>
        if some e.2 = parsed.circlePosition ∧ some e.1 ≠ parsed.key then
          acc ++ [⟨e.1, "Relative major/minor", 95⟩]
        else acc) []
    let adjacentPositions : List (Option Nat) :=
      [parsed.circlePosition.map (fun p => (p + 1) % 12),
       parsed.circlePosition.map (fun p => (p + 11) % 12)]
    let suggestions := circleOfFifthsList.foldl
      (fun acc e =>
        if (some e.2 : Option Nat) ∈ adjacentPositions then
          acc ++ [⟨e.1, "Adjacent in circle of fifths", 80⟩]
        else acc) relative
    suggestions.take 10

/-! ## Spec-side characterizations and helper lemmas -/

/-- Spec wording of rule 3 of the key cascade: the pair of canonical
identities occurs, in either order, in the fixed 14-pair relative table. -/
def specRelative (p1 p2 : ParsedKey) : Prop :=
  ∃ pr ∈ relativePairs,
    (p1.key = some pr.1 ∧ p2.key = some pr.2) ∨
    (p1.key = some pr.2 ∧ p2.key = some pr.1)

/-- Spec wording of the circular distance `min(|p1-p2|, 12-|p1-p2|)`. -/
def specCircDist (a b : Nat) : Nat :=
  min ((a : Int) - (b : Int)).natAbs (12 - ((a : Int) - (b : Int)).natAbs)

/-- Spec-side tier thresholds applied to the reported integer score. -/
def overallTier (score : Int) : String :=
  if score ≥ 90 then "excellent"
  else if score ≥ 75 then "very-good"
  else if score ≥ 60 then "good"
  else if score ≥ 40 then "fair"
  else if score ≥ 25 then "acceptable"
  else "poor"

/-- Spec wording of the suggestion list: all table entries sharing the
reference's circle position under a different identity (relative, 95), then
all table entries at circle position +1 or −1 (mod 12) (adjacent, 80),
truncated to at most ten. -/
def specSuggestions (parsed : ParsedKey) : List Suggestion :=
  ((circleOfFifthsList.filter
      (fun e : String × Nat =>
        decide (some e.2 = parsed.circlePosition ∧ some e.1 ≠ parsed.key))).map
      (fun e : String × Nat => (⟨e.1, "Relative major/minor", 95⟩ : Suggestion)) ++
   (circleOfFifthsList.filter
      (fun e : String × Nat =>
        decide (some e.2 = parsed.circlePosition.map (fun p => (p + 1) % 12) ∨
          some e.2 = parsed.circlePosition.map (fun p => (p + 11) % 12)))).map
      (fun e : String × Nat =>
        (⟨e.1, "Adjacent in circle of fifths", 80⟩ : Suggestion))).take 10

/-- The verdict computed for a candidate against the reference (spec-side
shorthand for the statement of the ranking theorem). -/
def candidateVerdict {α : Type} (referenceTrack t : Track α) : OverallResult :=
  calculateOverallCompatibility (trackKB referenceTrack.key_info) (trackKB t.key_info)

/-- Spec wording of the retained list: the candidates whose overall score
meets `minScore` (inclusive), in input order, each decorated with its
verdict and its original fields preserved. -/
def rankedSurvivors {α : Type} (referenceTrack : Track α) (candidateTracks : List (Track α))
    (minScore : Int) : List (RankedTrack α) :=
  (candidateTracks.filter
      (fun t => decide ((candidateVerdict referenceTrack t).overall.score ≥ minScore))).map
    (fun t => ⟨t, candidateVerdict referenceTrack t⟩)

/-- The tail of the key grammar after the note: optional whitespace followed
by nothing or by a whole mode token. -/
def grammarTail (xs : List Char) : Bool :=
  let ys := xs.dropWhile isJsSpace
  ys.isEmpty || isModeToken ys

/-- The grammar exactly as the claim words it: an **uppercase** letter `A`–`G`,
optionally `#` or `b`, then the optional-mode tail. -/
def claimGrammar (cs : List Char) : Bool :=
  match cs with
  | [] => false
  | c :: rest =>
    ('A' ≤ c && c ≤ 'G') &&
    (grammarTail rest ||
      (match rest with
       | d :: rest2 => (d = '#' || d = 'b') && grammarTail rest2
       | [] => false))

/-- The amended grammar: the regex carries the `i` flag, so the letter may
also be lowercase `a`–`g` and the flat marker may be `b` or `B`. -/
def amendedGrammar (cs : List Char) : Bool :=
  match cs with
  | [] => false
  | c :: rest =>
    isKeyLetter c &&
    (grammarTail rest ||
      (match rest with
       | d :: rest2 => isAccidental d && grammarTail rest2
       | [] => false))

theorem areRelativeKeys_eq_true_iff (p1 p2 : ParsedKey) :
    areRelativeKeys p1 p2 = true ↔ specRelative p1 p2 := by
  simp [areRelativeKeys, specRelative, List.any_eq_true]

theorem areParallelKeys_eq_true_iff (p1 p2 : ParsedKey) :
    areParallelKeys p1 p2 = true ↔ (p1.note = p2.note ∧ p1.mode ≠ p2.mode) := by
  simp [areParallelKeys]

theorem calculateCircleDistance_eq_specCircDist (a b : Nat) :
    calculateCircleDistance a b = specCircDist a b := rfl

/-- **C1** For every pair of key strings, `calculateKeyCompatibility`
evaluates the fixed first-match-wins priority cascade: invalid → unknown/0;
equal canonical identities → perfect/100; relative pair → excellent/95;
parallel pair → very-good/85; otherwise the circular distance tiers 1/2/3 →
80/60/40, and distance ≥ 4 or an undefined position → poor/20.  Each
conjunct's guards record that no earlier rule matched. -/
theorem calculateKeyCompatibility_cascade (k1 k2 : String) :
    (¬((parseKey (some k1)).isValid = true ∧ (parseKey (some k2)).isValid = true) →
      calculateKeyCompatibility (some k1) (some k2) = ⟨"unknown", 0, "Invalid key data"⟩) ∧
    ((parseKey (some k1)).isValid = true → (parseKey (some k2)).isValid = true →
      (parseKey (some k1)).key = (parseKey (some k2)).key →
      calculateKeyCompatibility (some k1) (some k2) = ⟨"perfect", 100, "Same key"⟩) ∧
    ((parseKey (some k1)).isValid = true → (parseKey (some k2)).isValid = true →
      (parseKey (some k1)).key ≠ (parseKey (some k2)).key →
      specRelative (parseKey (some k1)) (parseKey (some k2)) →
      calculateKeyCompatibility (some k1) (some k2) =
        ⟨"excellent", 95, "Relative major/minor keys"⟩) ∧
    ((parseKey (some k1)).isValid = true → (parseKey (some k2)).isValid = true →
      (parseKey (some k1)).key ≠ (parseKey (some k2)).key →
      ¬ specRelative (parseKey (some k1)) (parseKey (some k2)) →
      (parseKey (some k1)).note = (parseKey (some k2)).note →
      (parseKey (some k1)).mode ≠ (parseKey (some k2)).mode →
      calculateKeyCompatibility (some k1) (some k2) =
        ⟨"very-good", 85, "Parallel major/minor keys"⟩) ∧
    (∀ a b, (parseKey (some k1)).isValid = true → (parseKey (some k2)).isValid = true →
      (parseKey (some k1)).key ≠ (parseKey (some k2)).key →
      ¬ specRelative (parseKey (some k1)) (parseKey (some k2)) →
      ¬ ((parseKey (some k1)).note = (parseKey (some k2)).note ∧
          (parseKey (some k1)).mode ≠ (parseKey (some k2)).mode) →
      (parseKey (some k1)).circlePosition = some a →
      (parseKey (some k2)).circlePosition = some b →
      specCircDist a b = 1 →
      calculateKeyCompatibility (some k1) (some k2) =
        ⟨"good", 80, "Adjacent keys in circle of fifths"⟩) ∧
    (∀ a b, (parseKey (some k1)).isValid = true → (parseKey (some k2)).isValid = true →
      (parseKey (some k1)).key ≠ (parseKey (some k2)).key →
      ¬ specRelative (parseKey (some k1)) (parseKey (some k2)) →
      ¬ ((parseKey (some k1)).note = (parseKey (some k2)).note ∧
          (parseKey (some k1)).mode ≠ (parseKey (some k2)).mode) →
      (parseKey (some k1)).circlePosition = some a →
      (parseKey (some k2)).circlePosition = some b →
      specCircDist a b = 2 →
      calculateKeyCompatibility (some k1) (some k2) =
        ⟨"fair", 60, "Two steps apart in circle of fifths"⟩) ∧
    (∀ a b, (parseKey (some k1)).isValid = true → (parseKey (some k2)).isValid = true →
      (parseKey (some k1)).key ≠ (parseKey (some k2)).key →
      ¬ specRelative (parseKey (some k1)) (parseKey (some k2)) →
      ¬ ((parseKey (some k1)).note = (parseKey (some k2)).note ∧
          (parseKey (some k1)).mode ≠ (parseKey (some k2)).mode) →
      (parseKey (some k1)).circlePosition = some a →
      (parseKey (some k2)).circlePosition = some b →
      specCircDist a b = 3 →
      calculateKeyCompatibility (some k1) (some k2) =
        ⟨"acceptable", 40, "Three steps apart in circle of fifths"⟩) ∧
    ((parseKey (some k1)).isValid = true → (parseKey (some k2)).isValid = true →
      (parseKey (some k1)).key ≠ (parseKey (some k2)).key →
      ¬ specRelative (parseKey (some k1)) (parseKey (some k2)) →
      ¬ ((parseKey (some k1)).note = (parseKey (some k2)).note ∧
          (parseKey (some k1)).mode ≠ (parseKey (some k2)).mode) →
      (∀ a b, (parseKey (some k1)).circlePosition = some a →
        (parseKey (some k2)).circlePosition = some b → 4 ≤ specCircDist a b) →
      calculateKeyCompatibility (some k1) (some k2) =
        ⟨"poor", 20, "Keys are not harmonically related"⟩) := by
  have hrel := areRelativeKeys_eq_true_iff (parseKey (some k1)) (parseKey (some k2))
  have hpar := areParallelKeys_eq_true_iff (parseKey (some k1)) (parseKey (some k2))
  refine ⟨?_, ?_, ?_, ?_, ?_, ?_, ?_, ?_⟩
  · intro h
    rcases not_and_or.mp h with h' | h' <;>
      simp [calculateKeyCompatibility, Bool.eq_false_iff.mpr h']
  · intro h1 h2 hk
    simp [calculateKeyCompatibility, h1, h2, hk]
  · intro h1 h2 hk hrel'
    simp [calculateKeyCompatibility, h1, h2, hk, hrel.mpr hrel']
  · intro h1 h2 hk hnrel hn hm
    have hr : areRelativeKeys (parseKey (some k1)) (parseKey (some k2)) = false :=
      Bool.eq_false_iff.mpr (fun hc => hnrel (hrel.mp hc))
    simp [calculateKeyCompatibility, h1, h2, hk, hr, hpar.mpr ⟨hn, hm⟩]
  · intro a b h1 h2 hk hnrel hnpar hp1 hp2 hd
    have hr : areRelativeKeys (parseKey (some k1)) (parseKey (some k2)) = false :=
      Bool.eq_false_iff.mpr (fun hc => hnrel (hrel.mp hc))
    have hp : areParallelKeys (parseKey (some k1)) (parseKey (some k2)) = false :=
      Bool.eq_false_iff.mpr (fun hc => hnpar (hpar.mp hc))
    simp [calculateKeyCompatibility, h1, h2, hk, hr, hp, hp1, hp2,
      calculateCircleDistance_eq_specCircDist, hd]
  · intro a b h1 h2 hk hnrel hnpar hp1 hp2 hd
    have hr : areRelativeKeys (parseKey (some k1)) (parseKey (some k2)) = false :=
      Bool.eq_false_iff.mpr (fun hc => hnrel (hrel.mp hc))
    have hp : areParallelKeys (parseKey (some k1)) (parseKey (some k2)) = false :=
      Bool.eq_false_iff.mpr (fun hc => hnpar (hpar.mp hc))
    simp [calculateKeyCompatibility, h1, h2, hk, hr, hp, hp1, hp2,
      calculateCircleDistance_eq_specCircDist, hd]
  · intro a b h1 h2 hk hnrel hnpar hp1 hp2 hd
    have hr : areRelativeKeys (parseKey (some k1)) (parseKey (some k2)) = false :=
      Bool.eq_false_iff.mpr (fun hc => hnrel (hrel.mp hc))
    have hp : areParallelKeys (parseKey (some k1)) (parseKey (some k2)) = false :=
      Bool.eq_false_iff.mpr (fun hc => hnpar (hpar.mp hc))
    simp [calculateKeyCompatibility, h1, h2, hk, hr, hp, hp1, hp2,
      calculateCircleDistance_eq_specCircDist, hd]
  · intro h1 h2 hk hnrel hnpar hfar
    have hr : areRelativeKeys (parseKey (some k1)) (parseKey (some k2)) = false :=
      Bool.eq_false_iff.mpr (fun hc => hnrel (hrel.mp hc))
    have hp : areParallelKeys (parseKey (some k1)) (parseKey (some k2)) = false :=
      Bool.eq_false_iff.mpr (fun hc => hnpar (hpar.mp hc))
    rcases hc1 : (parseKey (some k1)).circlePosition with _ | a <;>
      rcases hc2 : (parseKey (some k2)).circlePosition with _ | b <;>
        simp [calculateKeyCompatibility, h1, h2, hk, hr, hp, hc1, hc2]
    have := hfar a b hc1 hc2
    rw [calculateCircleDistance_eq_specCircDist]
    have h1' : specCircDist a b ≠ 1 := by omega
    have h2' : specCircDist a b ≠ 2 := by omega
    have h3' : specCircDist a b ≠ 3 := by omega
    simp [h1', h2', h3']

/-- Witness for C1 at a concrete relative pair. -/
theorem calculateKeyCompatibility_cascade_witness :
    calculateKeyCompatibility (some "C Major") (some "Am") =
      ⟨"excellent", 95, "Relative major/minor keys"⟩ :=
  (calculateKeyCompatibility_cascade "C Major" "Am").2.2.1
    (by decide) (by decide) (by decide)
    ⟨("C", "Am"), by decide, Or.inl ⟨by decide, by decide⟩⟩

theorem calculateKeyCompatibility_invalid (k1 k2 : Option String)
    (h : ¬((parseKey k1).isValid = true ∧ (parseKey k2).isValid = true)) :
    calculateKeyCompatibility k1 k2 = ⟨"unknown", 0, "Invalid key data"⟩ := by
  rcases not_and_or.mp h with h' | h' <;>
    simp [calculateKeyCompatibility, Bool.eq_false_iff.mpr h']

theorem calculateBpmCompatibility_invalid (b1 b2 : Option String)
    (h : jsParseInt b1 = none ∨ jsParseInt b2 = none) :
    calculateBpmCompatibility b1 b2 = ⟨"unknown", 0, "Invalid BPM data"⟩ := by
  rcases h with h | h
  · simp [calculateBpmCompatibility, h]
  · rcases e : jsParseInt b1 with _ | v <;> simp [calculateBpmCompatibility, e, h]

/-- **C4** For parseable integer tempos with different values whose high/low
ratio is within 0.1 of 2, the classifier reports the half/double relationship
(excellent, 90) — the ratio rule fires before any absolute-difference tier. -/
theorem calculateBpmCompatibility_half_double (a b : String) (x y : Int)
    (hx : jsParseInt (some a) = some x) (hy : jsParseInt (some b) = some y)
    (hne : x ≠ y)
    (hr : |(max x y : ℚ) / (min x y : ℚ) - 2| < 1/10) :
    calculateBpmCompatibility (some a) (some b) =
      ⟨"excellent", 90, "Half/double BPM relationship"⟩ := by
  have hd : ¬((x - y).natAbs = 0) := by omega
  have hcond : |(x : ℚ) / (y : ℚ) - 2| < 1/10 ∨ |(y : ℚ) / (x : ℚ) - 2| < 1/10 := by
    rcases le_total x y with h | h
    · have h' : (x : ℚ) ≤ (y : ℚ) := by exact_mod_cast h
      right
      rw [max_eq_right h', min_eq_left h'] at hr
      exact hr
    · have h' : (y : ℚ) ≤ (x : ℚ) := by exact_mod_cast h
      left
      rw [max_eq_left h', min_eq_right h'] at hr
      exact hr
  simp only [calculateBpmCompatibility, hx, hy]
  rw [if_neg hd, if_pos hcond]

/-- Witness for C4: `tempoCompatibility("120","60")` is excellent/90 with the
half/double reason. -/
theorem calculateBpmCompatibility_half_double_witness :
    calculateBpmCompatibility (some "120") (some "60") =
      ⟨"excellent", 90, "Half/double BPM relationship"⟩ :=
  calculateBpmCompatibility_half_double "120" "60" 120 60
    (by decide) (by decide) (by decide) (by norm_num)

/-- **C6** `calculateOverallCompatibility` degrades gracefully: each side's
sub-verdict is exactly the sub-classifier's output, an unparseable key side
yields the unknown key result, an unparseable tempo side yields the unknown
tempo result, and the combined score and the two-tip advice are always
produced. -/
theorem calculateOverallCompatibility_graceful (k1 k2 b1 b2 : String) :
    (calculateOverallCompatibility ⟨some k1, some b1⟩ ⟨some k2, some b2⟩).key =
        calculateKeyCompatibility (some k1) (some k2) ∧
    (calculateOverallCompatibility ⟨some k1, some b1⟩ ⟨some k2, some b2⟩).bpm =
        calculateBpmCompatibility (some b1) (some b2) ∧
    (¬((parseKey (some k1)).isValid = true ∧ (parseKey (some k2)).isValid = true) →
      (calculateOverallCompatibility ⟨some k1, some b1⟩ ⟨some k2, some b2⟩).key =
        ⟨"unknown", 0, "Invalid key data"⟩) ∧
    ((jsParseInt (some b1) = none ∨ jsParseInt (some b2) = none) →
      (calculateOverallCompatibility ⟨some k1, some b1⟩ ⟨some k2, some b2⟩).bpm =
        ⟨"unknown", 0, "Invalid BPM data"⟩) ∧
    (calculateOverallCompatibility ⟨some k1, some b1⟩ ⟨some k2, some b2⟩).overall.score =
      jsRound (((calculateKeyCompatibility (some k1) (some k2)).score : ℚ) * (6/10) +
        ((calculateBpmCompatibility (some b1) (some b2)).score : ℚ) * (4/10)) ∧
    (calculateOverallCompatibility ⟨some k1, some b1⟩ ⟨some k2, some b2⟩).mixing_advice.length = 2 := by
  refine ⟨rfl, rfl, ?_, ?_, rfl, ?_⟩
  · intro h
    exact calculateKeyCompatibility_invalid _ _ h
  · intro h
    exact calculateBpmCompatibility_invalid _ _ h
  · simp [calculateOverallCompatibility, getMixingAdvice]

/-- Witness for C6 at a malformed key and a malformed tempo. -/
theorem calculateOverallCompatibility_graceful_witness :
    (calculateOverallCompatibility ⟨some "???", some "abc"⟩
        ⟨some "C Major", some "120"⟩).key = ⟨"unknown", 0, "Invalid key data"⟩ ∧
    (calculateOverallCompatibility ⟨some "???", some "abc"⟩
        ⟨some "C Major", some "120"⟩).bpm = ⟨"unknown", 0, "Invalid BPM data"⟩ :=
  ⟨(calculateOverallCompatibility_graceful "???" "C Major" "abc" "120").2.2.1
      (by decide),
   (calculateOverallCompatibility_graceful "???" "C Major" "abc" "120").2.2.2.1
      (Or.inl (by decide))⟩

/-- The score set of the key classifier. -/
theorem keyScore_mem (k1 k2 : Option String) :
    (calculateKeyCompatibility k1 k2).score ∈ ([0, 100, 95, 85, 80, 60, 40, 20] : List Nat) := by
  simp only [calculateKeyCompatibility]
  repeat' split
  all_goals simp

/-- The score set of the tempo classifier. -/
theorem bpmScore_mem (b1 b2 : Option String) :
    (calculateBpmCompatibility b1 b2).score ∈
      ([0, 100, 90, 75, 95, 80, 60, 40, 20] : List Nat) := by
  simp only [calculateBpmCompatibility]
  repeat' split
  all_goals simp

/-- **C2** The overall verdict's tier label is exactly the tier obtained by
applying the fixed thresholds to the reported integer score
`round(keyScore·0.6 + tempoScore·0.4)`; the label is never derived from some
other quantity. -/
theorem overall_label_from_rounded_score (t1 t2 : TrackKB) :
    (calculateOverallCompatibility t1 t2).overall.score =
      jsRound (((calculateOverallCompatibility t1 t2).key.score : ℚ) * (6/10) +
        ((calculateOverallCompatibility t1 t2).bpm.score : ℚ) * (4/10)) ∧
    (calculateOverallCompatibility t1 t2).overall.compatibility =
      overallTier (calculateOverallCompatibility t1 t2).overall.score := by
  constructor
  · rfl
  · have hk := keyScore_mem t1.key t2.key
    have hb := bpmScore_mem t1.bpm t2.bpm
    simp only [calculateOverallCompatibility]
    generalize (calculateKeyCompatibility t1.key t2.key).score = ks at hk
    generalize (calculateBpmCompatibility t1.bpm t2.bpm).score = bs at hb
    fin_cases hk <;> fin_cases hb <;> norm_num [overallTier, jsRound]

theorem areRelativeKeys_comm (p1 p2 : ParsedKey) :
    areRelativeKeys p1 p2 = areRelativeKeys p2 p1 := by
  rw [Bool.eq_iff_iff, areRelativeKeys_eq_true_iff, areRelativeKeys_eq_true_iff]
  simp only [specRelative]
  constructor <;> rintro ⟨pr, hm, h | h⟩
  · exact ⟨pr, hm, Or.inr ⟨h.2, h.1⟩⟩
  · exact ⟨pr, hm, Or.inl ⟨h.2, h.1⟩⟩
  · exact ⟨pr, hm, Or.inr ⟨h.2, h.1⟩⟩
  · exact ⟨pr, hm, Or.inl ⟨h.2, h.1⟩⟩

theorem areParallelKeys_comm (p1 p2 : ParsedKey) :
    areParallelKeys p1 p2 = areParallelKeys p2 p1 := by
  rw [Bool.eq_iff_iff, areParallelKeys_eq_true_iff, areParallelKeys_eq_true_iff]
  constructor <;> rintro ⟨ha, hb⟩ <;> exact ⟨ha.symm, hb.symm⟩

theorem calculateCircleDistance_comm (a b : Nat) :
    calculateCircleDistance a b = calculateCircleDistance b a := by
  simp only [calculateCircleDistance]
  omega

/-- **C7** Key compatibility is symmetric on valid keys: swapping the two key
strings leaves the label, score and reason unchanged. -/
theorem calculateKeyCompatibility_symm (k1 k2 : String)
    (h1 : (parseKey (some k1)).isValid = true)
    (h2 : (parseKey (some k2)).isValid = true) :
    calculateKeyCompatibility (some k1) (some k2) =
      calculateKeyCompatibility (some k2) (some k1) := by
  by_cases hk : (parseKey (some k1)).key = (parseKey (some k2)).key
  · simp [calculateKeyCompatibility, h1, h2, hk]
  · have hk' : ¬((parseKey (some k2)).key = (parseKey (some k1)).key) :=
      fun h => hk h.symm
    by_cases hr : areRelativeKeys (parseKey (some k1)) (parseKey (some k2)) = true
    · have hr' : areRelativeKeys (parseKey (some k2)) (parseKey (some k1)) = true := by
        rw [← areRelativeKeys_comm]
        exact hr
      simp [calculateKeyCompatibility, h1, h2, hk, hk', hr, hr']
    · have hr' : ¬(areRelativeKeys (parseKey (some k2)) (parseKey (some k1)) = true) := by
        rw [← areRelativeKeys_comm]
        exact hr
      by_cases hp : areParallelKeys (parseKey (some k1)) (parseKey (some k2)) = true
      · have hp' : areParallelKeys (parseKey (some k2)) (parseKey (some k1)) = true := by
          rw [← areParallelKeys_comm]
          exact hp
        simp [calculateKeyCompatibility, h1, h2, hk, hk', hr, hr', hp, hp']
      · have hp' : ¬(areParallelKeys (parseKey (some k2)) (parseKey (some k1)) = true) := by
          rw [← areParallelKeys_comm]
          exact hp
        rcases e1 : (parseKey (some k1)).circlePosition with _ | a <;>
          rcases e2 : (parseKey (some k2)).circlePosition with _ | b <;>
            simp [calculateKeyCompatibility, h1, h2, hk, hk', hr, hr', hp, hp', e1, e2]
        rw [calculateCircleDistance_comm]

/-- Witness for C7 at two concrete valid keys. -/
theorem calculateKeyCompatibility_symm_witness :
    calculateKeyCompatibility (some "C Major") (some "G Major") =
      calculateKeyCompatibility (some "G Major") (some "C Major") :=
  calculateKeyCompatibility_symm "C Major" "G Major" (by decide) (by decide)

theorem foldl_push_filter {β γ : Type} (p : β → Prop) [DecidablePred p] (f : β → γ) :
    ∀ (l : List β) (init : List γ),
      l.foldl (fun acc e => if p e then acc ++ [f e] else acc) init =
        init ++ (l.filter (fun e => decide (p e))).map f := by
  intro l
  induction l with
  | nil => intro init; simp
  | cons x xs ih =>
    intro init
    by_cases h : p x <;> simp [h, ih]

/-- **C9** For an invalid reference key the suggestion generator returns the
empty list; for a valid one it returns the same-position entries (different
identity) first, then the entries at the two adjacent circle positions,
truncated to ten. -/
theorem generateCompatibleSearchSuggestions_spec (k : String) :
    ((parseKey (some k)).isValid = false →
      generateCompatibleSearchSuggestions (some k) none = []) ∧
    ((parseKey (some k)).isValid = true →
      generateCompatibleSearchSuggestions (some k) none =
        specSuggestions (parseKey (some k))) := by
  constructor
  · intro h
    simp [generateCompatibleSearchSuggestions, h]
  · intro h
    simp only [generateCompatibleSearchSuggestions, h, Bool.not_true, Bool.false_eq_true,
      if_false]
    rw [foldl_push_filter
      (p := fun e : String × Nat =>
        some e.2 = (parseKey (some k)).circlePosition ∧ some e.1 ≠ (parseKey (some k)).key)
      (f := fun e : String × Nat => (⟨e.1, "Relative major/minor", 95⟩ : Suggestion))]
    rw [foldl_push_filter
      (p := fun e : String × Nat => (some e.2 : Option Nat) ∈
        [(parseKey (some k)).circlePosition.map (fun p => (p + 1) % 12),
         (parseKey (some k)).circlePosition.map (fun p => (p + 11) % 12)])
      (f := fun e : String × Nat => (⟨e.1, "Adjacent in circle of fifths", 80⟩ : Suggestion))]
    simp only [specSuggestions, List.nil_append]
    refine congrArg (List.take 10) (congrArg₂ (· ++ ·) rfl (congrArg _ ?_))
    apply List.filter_congr
    intro e _
    rw [decide_eq_decide]
    simp [List.mem_cons]

/-- Witness for C9 at a concrete valid reference key. -/
theorem generateCompatibleSearchSuggestions_spec_witness :
    generateCompatibleSearchSuggestions (some "C Major") none =
      specSuggestions (parseKey (some "C Major")) :=
  (generateCompatibleSearchSuggestions_spec "C Major").2 (by decide)

/-! ## Character-class arithmetic and the shape of successful parses -/

theorem char_le_iff_toNat (a b : Char) : a ≤ b ↔ a.toNat ≤ b.toNat := Iff.rfl

theorem char_eq_iff_toNat (a b : Char) : a = b ↔ a.toNat = b.toNat :=
  ⟨congrArg Char.toNat, fun h => Char.ext (UInt32.ext h)⟩

theorem isKeyLetter_iff (c : Char) : isKeyLetter c = true ↔
    (65 ≤ c.toNat ∧ c.toNat ≤ 71) ∨ (97 ≤ c.toNat ∧ c.toNat ≤ 103) := by
  simp [isKeyLetter, char_le_iff_toNat, show 'A'.toNat = 65 from rfl,
    show 'G'.toNat = 71 from rfl, show 'a'.toNat = 97 from rfl,
    show 'g'.toNat = 103 from rfl]

theorem isJsSpace_iff (c : Char) : isJsSpace c = true ↔
    (c.toNat = 32 ∨ c.toNat = 9 ∨ c.toNat = 10 ∨ c.toNat = 13 ∨ c.toNat = 11 ∨ c.toNat = 12 ∨
     c.toNat = 160 ∨ c.toNat = 5760 ∨ (8192 ≤ c.toNat ∧ c.toNat ≤ 8202) ∨ c.toNat = 8232 ∨
     c.toNat = 8233 ∨ c.toNat = 8239 ∨ c.toNat = 8287 ∨ c.toNat = 12288 ∨
     c.toNat = 65279) := by
  simp only [isJsSpace, Bool.or_eq_true, decide_eq_true_eq, Bool.and_eq_true,
    char_le_iff_toNat, char_eq_iff_toNat]
  tauto

theorem isAccidental_iff (c : Char) : isAccidental c = true ↔
    (c.toNat = 35 ∨ c.toNat = 98 ∨ c.toNat = 66) := by
  simp only [isAccidental, Bool.or_eq_true, decide_eq_true_eq, char_eq_iff_toNat]
  tauto

theorem isKeyLetter_not_space (c : Char) (h : isKeyLetter c = true) :
    isJsSpace c = false := by
  rw [Bool.eq_false_iff]
  intro hs
  have h1 := (isKeyLetter_iff c).mp h
  have h2 := (isJsSpace_iff c).mp hs
  omega

theorem isAccidental_not_space (c : Char) (h : isAccidental c = true) :
    isJsSpace c = false := by
  rw [Bool.eq_false_iff]
  intro hs
  have h1 := (isAccidental_iff c).mp h
  have h2 := (isJsSpace_iff c).mp hs
  omega

theorem isKeyLetter_ne_m (c : Char) (h : isKeyLetter c = true) : c ≠ 'm' := by
  intro he
  have h1 := (isKeyLetter_iff c).mp h
  rw [char_eq_iff_toNat] at he
  simp only [show ('m').toNat = 109 from rfl] at he
  omega

theorem isAccidental_ne_m (c : Char) (h : isAccidental c = true) : c ≠ 'm' := by
  intro he
  have h1 := (isAccidental_iff c).mp h
  rw [char_eq_iff_toNat] at he
  simp only [show ('m').toNat = 109 from rfl] at he
  omega

theorem matchAfterNote_shape (note rest : List Char) (res : List Char × Option (List Char))
    (h : matchAfterNote note rest = some res) :
    res.1 = note ∧ (∀ m, res.2 = some m → isModeToken m = true) := by
  simp only [matchAfterNote] at h
  split at h
  · rw [Option.some.injEq] at h
    subst h
    exact ⟨rfl, fun m hm => by cases hm⟩
  · split at h
    · rw [Option.some.injEq] at h
      subst h
      refine ⟨rfl, fun m hm => ?_⟩
      rw [Option.some.injEq] at hm
      subst hm
      assumption
    · cases h

theorem matchKeyPattern_shape (cs note : List Char) (modeRaw : Option (List Char))
    (h : matchKeyPattern cs = some (note, modeRaw)) :
    (∃ c, isKeyLetter c = true ∧
      (note = [c] ∨ ∃ d, isAccidental d = true ∧ note = [c, d])) ∧
    (∀ m, modeRaw = some m → isModeToken m = true) := by
  match cs with
  | [] => simp [matchKeyPattern] at h
  | [c] =>
    simp only [matchKeyPattern] at h
    by_cases hc : isKeyLetter c = true
    case neg => simp [hc] at h
    rw [if_pos hc] at h
    obtain ⟨h1, h2⟩ := matchAfterNote_shape _ _ _ h
    exact ⟨⟨c, hc, Or.inl h1⟩, h2⟩
  | c :: d :: rest2 =>
    simp only [matchKeyPattern] at h
    by_cases hc : isKeyLetter c = true
    case neg => simp [hc] at h
    rw [if_pos hc] at h
    by_cases hd : isAccidental d = true
    · rw [if_pos hd] at h
      obtain ⟨h1, h2⟩ := matchAfterNote_shape _ _ _ h
      exact ⟨⟨c, hc, Or.inr ⟨d, hd, h1⟩⟩, h2⟩
    · rw [if_neg hd] at h
      obtain ⟨h1, h2⟩ := matchAfterNote_shape _ _ _ h
      exact ⟨⟨c, hc, Or.inl h1⟩, h2⟩

theorem parseKey_valid_shape (s : String) (h : (parseKey (some s)).isValid = true) :
    ∃ (note : List Char) (minor : Bool),
      (∃ c, isKeyLetter c = true ∧
        (note = [c] ∨ ∃ d, isAccidental d = true ∧ note = [c, d])) ∧
      parseKey (some s) =
        { key := some ⟨note ++ if minor then ['m'] else []⟩
          note := some ⟨note⟩
          mode := some (if minor then "minor" else "major")
          isValid := true
          circlePosition := circleOfFifths ⟨note ++ if minor then ['m'] else []⟩ } := by
  have hlow1 : lowerStr ['m','a','j','o','r'] = ['m','a','j','o','r'] := by decide
  have hlow2 : lowerStr ['m','i','n','o','r'] = ['m','i','n','o','r'] := by decide
  have hne1 : ¬ s = "" := by
    intro hc
    simp [parseKey, hc, invalidParsedKey] at h
  have hne2 : ¬ s = "Unknown" := by
    intro hc
    simp [parseKey, hc, invalidParsedKey] at h
  rcases em : matchKeyPattern (jsTrim s).data with _ | ⟨noteRaw, modeRaw⟩
  · exfalso
    simp [parseKey, hne1, hne2, em, invalidParsedKey] at h
  obtain ⟨⟨c, hc, hnote⟩, hmode⟩ := matchKeyPattern_shape _ _ _ em
  have hlast : ¬ (noteRaw.getLast? = some 'm') := by
    rcases hnote with hv | ⟨d, hd, hv⟩ <;> subst hv <;> simp
    · exact isKeyLetter_ne_m c hc
    · exact isAccidental_ne_m d hd
  rcases modeRaw with _ | m
  · refine ⟨noteRaw, false, ⟨c, hc, hnote⟩, ?_⟩
    simp only [parseKey, hne1, hne2, em, if_neg hlast]
    simp [hlow1]
  · have htok := hmode m rfl
    simp only [isModeToken, Bool.or_eq_true, decide_eq_true_eq] at htok
    rcases htok with ((((hm | hm) | hm) | hm) | hm)
    · refine ⟨noteRaw, false, ⟨c, hc, hnote⟩, ?_⟩
      simp only [parseKey, hne1, hne2, em, hm]
      simp [hlow1]
    · refine ⟨noteRaw, true, ⟨c, hc, hnote⟩, ?_⟩
      simp only [parseKey, hne1, hne2, em, hm]
      simp [hlow2]
    · refine ⟨noteRaw, false, ⟨c, hc, hnote⟩, ?_⟩
      simp only [parseKey, hne1, hne2, em, hm]
      simp [hlow1]
    · refine ⟨noteRaw, true, ⟨c, hc, hnote⟩, ?_⟩
      simp only [parseKey, hne1, hne2, em, hm]
      simp
    · refine ⟨noteRaw, true, ⟨c, hc, hnote⟩, ?_⟩
      simp only [parseKey, hne1, hne2, em, hm]
      simp
theorem relativePairs_fst_last (pr : String × String) (h : pr ∈ relativePairs) :
    ¬ pr.1.data.getLast? = some 'm' := by
  fin_cases h <;> decide

theorem relativePairs_snd_last (pr : String × String) (h : pr ∈ relativePairs) :
    pr.2.data.getLast? = some 'm' := by
  fin_cases h <;> decide

theorem parseKey_minor_iff (s : String) (h : (parseKey (some s)).isValid = true) :
    ∃ ks, (parseKey (some s)).key = some ks ∧
      ((parseKey (some s)).mode = some "minor" ↔ ks.data.getLast? = some 'm') := by
  obtain ⟨note, minor, ⟨c, hc, hnote⟩, hrec⟩ := parseKey_valid_shape s h
  refine ⟨⟨note ++ if minor then ['m'] else []⟩, by rw [hrec], ?_⟩
  rw [hrec]
  cases minor
  · simp only [if_neg Bool.false_ne_true, List.append_nil]
    constructor
    · intro hcon
      simp at hcon
    · intro hlast
      exfalso
      rcases hnote with hv | ⟨d, hd, hv⟩ <;> subst hv <;> simp at hlast
      · exact isKeyLetter_ne_m c hc hlast
      · exact isAccidental_ne_m d hd hlast
  · simp

/-- **C10** Enharmonic duplicates (same circle position, same mode, different
canonical spelling, e.g. F# major vs Gb major) are not identity-equal, not
relative, not parallel, and sit at circular distance 0, which matches no
distance tier: the cascade falls through to poor/20. -/
theorem calculateKeyCompatibility_enharmonic_poor (k1 k2 : String)
    (h1 : (parseKey (some k1)).isValid = true)
    (h2 : (parseKey (some k2)).isValid = true)
    (hpos : ∃ p, (parseKey (some k1)).circlePosition = some p ∧
        (parseKey (some k2)).circlePosition = some p)
    (hmode : (parseKey (some k1)).mode = (parseKey (some k2)).mode)
    (hkey : (parseKey (some k1)).key ≠ (parseKey (some k2)).key) :
    calculateKeyCompatibility (some k1) (some k2) =
      ⟨"poor", 20, "Keys are not harmonically related"⟩ := by
  obtain ⟨p, hp1, hp2⟩ := hpos
  obtain ⟨ks1, hks1, hiff1⟩ := parseKey_minor_iff k1 h1
  obtain ⟨ks2, hks2, hiff2⟩ := parseKey_minor_iff k2 h2
  have hr : areRelativeKeys (parseKey (some k1)) (parseKey (some k2)) = false := by
    rw [Bool.eq_false_iff]
    intro hcon
    obtain ⟨pr, hm, hcase⟩ := (areRelativeKeys_eq_true_iff _ _).mp hcon
    rcases hcase with ⟨ha, hb⟩ | ⟨ha, hb⟩
    · rw [hks1] at ha
      rw [hks2] at hb
      have e1 : ks1 = pr.1 := by injection ha
      have e2 : ks2 = pr.2 := by injection hb
      have hm2 : (parseKey (some k2)).mode = some "minor" :=
        hiff2.mpr (by rw [e2]; exact relativePairs_snd_last pr hm)
      have hm1 : (parseKey (some k1)).mode = some "minor" := by rw [hmode]; exact hm2
      exact relativePairs_fst_last pr hm (by rw [← e1]; exact hiff1.mp hm1)
    · rw [hks1] at ha
      rw [hks2] at hb
      have e1 : ks1 = pr.2 := by injection ha
      have e2 : ks2 = pr.1 := by injection hb
      have hm1 : (parseKey (some k1)).mode = some "minor" :=
        hiff1.mpr (by rw [e1]; exact relativePairs_snd_last pr hm)
      have hm2 : (parseKey (some k2)).mode = some "minor" := by rw [← hmode]; exact hm1
      exact relativePairs_fst_last pr hm (by rw [← e2]; exact hiff2.mp hm2)
  have hp : areParallelKeys (parseKey (some k1)) (parseKey (some k2)) = false := by
    simp [areParallelKeys, hmode]
  simp [calculateKeyCompatibility, h1, h2, hkey, hr, hp, hp1, hp2, calculateCircleDistance]

/-- Witness for C10 at the enharmonic pair F# major / Gb major. -/
theorem calculateKeyCompatibility_enharmonic_poor_witness :
    calculateKeyCompatibility (some "F# Major") (some "Gb Major") =
      ⟨"poor", 20, "Keys are not harmonically related"⟩ :=
  calculateKeyCompatibility_enharmonic_poor "F# Major" "Gb Major"
    (by decide) (by decide) ⟨6, by decide, by decide⟩ (by decide) (by decide)
theorem jsTrim_no_space (cs : List Char)
    (hhead : ∀ x, cs.head? = some x → isJsSpace x = false)
    (hlast : ∀ x, cs.getLast? = some x → isJsSpace x = false) :
    jsTrim ⟨cs⟩ = ⟨cs⟩ := by
  have h1 : cs.dropWhile isJsSpace = cs := by
    cases cs with
    | nil => rfl
    | cons a l =>
      have ha := hhead a rfl
      simp [List.dropWhile_cons, ha]
  have h2 : cs.reverse.dropWhile isJsSpace = cs.reverse := by
    cases hre : cs.reverse with
    | nil => rfl
    | cons a l =>
      have hga : cs.getLast? = some a := by
        rw [List.getLast?_eq_head?_reverse, hre]
        rfl
      have ha := hlast a hga
      simp [List.dropWhile_cons, ha]
  show (⟨((cs.dropWhile isJsSpace).reverse.dropWhile isJsSpace).reverse⟩ : String) = ⟨cs⟩
  rw [h1, h2, List.reverse_reverse]

/-- **C8** Parsing is idempotent through the canonical identity: re-parsing
the normalized key produced by a successful parse reproduces every field of
the original parse result. -/
theorem parseKey_canonical_idempotent (k : String)
    (h : (parseKey (some k)).isValid = true) (ks : String)
    (hks : (parseKey (some k)).key = some ks) :
    parseKey (some ks) = parseKey (some k) := by
  obtain ⟨note, minor, ⟨c, hc, hnote⟩, hrec⟩ := parseKey_valid_shape k h
  have hcm := isKeyLetter_ne_m c hc
  have hcs := isKeyLetter_not_space c hc
  have hlow1 : lowerStr ['m','a','j','o','r'] = ['m','a','j','o','r'] := by decide
  have hms : isJsSpace 'm' = false := by decide
  have hma : isAccidental 'm' = false := by decide
  have hmt : isModeToken ['m'] = true := by decide
  have hlowm : lowerStr ['m'] = ['m'] := by decide
  have hks' : ks = ⟨note ++ if minor then ['m'] else []⟩ := by
    rw [hrec] at hks
    injection hks with e
    exact e.symm
  subst hks'
  rw [hrec]
  rcases hnote with hv | ⟨d, hd, hv⟩ <;> subst hv <;> cases minor
  · -- note [c], major; canonical [c]
    simp only [if_neg Bool.false_ne_true, List.append_nil]
    have hne1 : ¬((⟨[c]⟩ : String) = "") := by
      intro hcon
      have := congrArg String.data hcon
      simp at this
    have hne2 : ¬((⟨[c]⟩ : String) = "Unknown") := by
      intro hcon
      have := congrArg String.data hcon
      simp at this
    have htrim : jsTrim ⟨[c]⟩ = ⟨[c]⟩ := by
      apply jsTrim_no_space
      · intro x hx
        simp only [List.head?_cons, Option.some.injEq] at hx
        subst hx
        exact hcs
      · intro x hx
        simp only [List.getLast?_singleton, Option.some.injEq] at hx
        subst hx
        exact hcs
    have em : matchKeyPattern (jsTrim ⟨[c]⟩).data = some ([c], none) := by
      rw [htrim]
      show matchKeyPattern [c] = _
      simp [matchKeyPattern, hc, matchAfterNote]
    have hl : ¬(([c] : List Char).getLast? = some 'm') := by
      simp [hcm]
    simp only [parseKey, hne1, hne2, em, if_neg hl]
    simp [hlow1]
  · -- note [c], minor; canonical [c, 'm']
    simp only [if_pos, List.cons_append, List.nil_append]
    have hne1 : ¬((⟨[c, 'm']⟩ : String) = "") := by
      intro hcon
      have := congrArg String.data hcon
      simp at this
    have hne2 : ¬((⟨[c, 'm']⟩ : String) = "Unknown") := by
      intro hcon
      have := congrArg String.data hcon
      simp at this
    have htrim : jsTrim ⟨[c, 'm']⟩ = ⟨[c, 'm']⟩ := by
      apply jsTrim_no_space
      · intro x hx
        simp only [List.head?_cons, Option.some.injEq] at hx
        subst hx
        exact hcs
      · intro x hx
        simp only [List.getLast?_cons_cons, List.getLast?_singleton,
          Option.some.injEq] at hx
        subst hx
        exact hms
    have em : matchKeyPattern (jsTrim ⟨[c, 'm']⟩).data = some ([c], some ['m']) := by
      rw [htrim]
      show matchKeyPattern [c, 'm'] = _
      simp [matchKeyPattern, hc, hma, matchAfterNote, List.dropWhile_cons, hms, hmt]
    simp only [parseKey, hne1, hne2, em]
    simp [hlowm]
  · -- note [c, d], major; canonical [c, d]
    simp only [if_neg Bool.false_ne_true, List.append_nil]
    have hds := isAccidental_not_space d hd
    have hdm := isAccidental_ne_m d hd
    have hne1 : ¬((⟨[c, d]⟩ : String) = "") := by
      intro hcon
      have := congrArg String.data hcon
      simp at this
    have hne2 : ¬((⟨[c, d]⟩ : String) = "Unknown") := by
      intro hcon
      have := congrArg String.data hcon
      simp at this
    have htrim : jsTrim ⟨[c, d]⟩ = ⟨[c, d]⟩ := by
      apply jsTrim_no_space
      · intro x hx
        simp only [List.head?_cons, Option.some.injEq] at hx
        subst hx
        exact hcs
      · intro x hx
        simp only [List.getLast?_cons_cons, List.getLast?_singleton,
          Option.some.injEq] at hx
        subst hx
        exact hds
    have em : matchKeyPattern (jsTrim ⟨[c, d]⟩).data = some ([c, d], none) := by
      rw [htrim]
      show matchKeyPattern [c, d] = _
      simp [matchKeyPattern, hc, hd, matchAfterNote]
    have hl : ¬(([c, d] : List Char).getLast? = some 'm') := by
      simp [hdm]
    simp only [parseKey, hne1, hne2, em, if_neg hl]
    simp [hlow1]
  · -- note [c, d], minor; canonical [c, d, 'm']
    simp only [if_pos, List.cons_append, List.nil_append]
    have hds := isAccidental_not_space d hd
    have hne1 : ¬((⟨[c, d, 'm']⟩ : String) = "") := by
      intro hcon
      have := congrArg String.data hcon
      simp at this
    have hne2 : ¬((⟨[c, d, 'm']⟩ : String) = "Unknown") := by
      intro hcon
      have := congrArg String.data hcon
      simp at this
    have htrim : jsTrim ⟨[c, d, 'm']⟩ = ⟨[c, d, 'm']⟩ := by
      apply jsTrim_no_space
      · intro x hx
        simp only [List.head?_cons, Option.some.injEq] at hx
        subst hx
        exact hcs
      · intro x hx
        simp only [List.getLast?_cons_cons, List.getLast?_singleton,
          Option.some.injEq] at hx
        subst hx
        exact hms
    have em : matchKeyPattern (jsTrim ⟨[c, d, 'm']⟩).data = some ([c, d], some ['m']) := by
      rw [htrim]
      show matchKeyPattern [c, d, 'm'] = _
      simp [matchKeyPattern, hc, hd, matchAfterNote, List.dropWhile_cons, hms, hmt]
    simp only [parseKey, hne1, hne2, em]
    simp [hlowm]

/-- Witness for C8 at a concrete valid key. -/
theorem parseKey_canonical_idempotent_witness :
    parseKey (some "Bbm") = parseKey (some "Bb Minor") :=
  parseKey_canonical_idempotent "Bb Minor" (by decide) "Bbm" (by decide)

theorem findCompatibleTracks_eq {α : Type} (ref : Track α) (cands : List (Track α))
    (minScore : Int) :
    findCompatibleTracks ref cands minScore =
      (rankedSurvivors ref cands minScore).mergeSort
        (fun a b => decide (b.compatibility_info.overall.score ≤
          a.compatibility_info.overall.score)) := by
  simp only [findCompatibleTracks, rankedSurvivors, candidateVerdict]
  rw [foldl_push_filter
    (p := fun t : Track α =>
      (calculateOverallCompatibility (trackKB ref.key_info) (trackKB t.key_info)).overall.score ≥
        minScore)
    (f := fun t : Track α => (⟨t,
      calculateOverallCompatibility (trackKB ref.key_info) (trackKB t.key_info)⟩ :
        RankedTrack α))]
  simp

theorem overallScore_nonneg (t1 t2 : TrackKB) :
    0 ≤ (calculateOverallCompatibility t1 t2).overall.score := by
  simp only [calculateOverallCompatibility, jsRound]
  apply Int.le_floor.mpr
  push_cast
  positivity

/-- **C5** `findCompatibleTracks` returns exactly the candidates whose overall
score meets `minScore` (inclusive), original fields preserved and verdict
attached, sorted by overall score non-increasing; ties keep their relative
input order (the per-score slices of the output equal those of the input
order); `minScore = 0` keeps all candidates, and no survivors yields the
empty list rather than an error. -/
theorem findCompatibleTracks_spec {α : Type} (ref : Track α) (cands : List (Track α))
    (minScore : Int) :
    (findCompatibleTracks ref cands minScore).Perm (rankedSurvivors ref cands minScore) ∧
    (findCompatibleTracks ref cands minScore).Pairwise
      (fun a b => b.compatibility_info.overall.score ≤ a.compatibility_info.overall.score) ∧
    (∀ s : Int, (findCompatibleTracks ref cands minScore).filter
        (fun r => decide (r.compatibility_info.overall.score = s)) =
      (rankedSurvivors ref cands minScore).filter
        (fun r => decide (r.compatibility_info.overall.score = s))) ∧
    (rankedSurvivors ref cands minScore = [] → findCompatibleTracks ref cands minScore = []) ∧
    (minScore = 0 → (findCompatibleTracks ref cands minScore).length = cands.length) := by
  have htrans : ∀ a b c : RankedTrack α,
      (fun a b => decide (b.compatibility_info.overall.score ≤
        a.compatibility_info.overall.score)) a b = true →
      (fun a b => decide (b.compatibility_info.overall.score ≤
        a.compatibility_info.overall.score)) b c = true →
      (fun a b => decide (b.compatibility_info.overall.score ≤
        a.compatibility_info.overall.score)) a c = true := by
    intro a b c hab hbc
    simp only [decide_eq_true_eq] at *
    omega
  have htotal : ∀ a b : RankedTrack α,
      ((fun a b => decide (b.compatibility_info.overall.score ≤
        a.compatibility_info.overall.score)) a b ||
       (fun a b => decide (b.compatibility_info.overall.score ≤
        a.compatibility_info.overall.score)) b a) = true := by
    intro a b
    simp only [Bool.or_eq_true, decide_eq_true_eq]
    omega
  have hperm : (findCompatibleTracks ref cands minScore).Perm
      (rankedSurvivors ref cands minScore) := by
    rw [findCompatibleTracks_eq]
    exact List.mergeSort_perm _ _
  refine ⟨hperm, ?_, ?_, ?_, ?_⟩
  · rw [findCompatibleTracks_eq]
    have := List.sorted_mergeSort htrans htotal (rankedSurvivors ref cands minScore)
    exact this.imp (fun h => by simpa using h)
  · intro s
    have hall : ∀ r ∈ (rankedSurvivors ref cands minScore).filter
        (fun r => decide (r.compatibility_info.overall.score = s)),
        r.compatibility_info.overall.score = s := by
      intro r hr
      have := (List.mem_filter.mp hr).2
      simpa using this
    have hpair : ((rankedSurvivors ref cands minScore).filter
        (fun r => decide (r.compatibility_info.overall.score = s))).Pairwise
        (fun a b => decide (b.compatibility_info.overall.score ≤
          a.compatibility_info.overall.score) = true) := by
      apply List.pairwise_of_forall_mem_list
      intro a ha b hb
      have h1 := hall a ha
      have h2 := hall b hb
      simp [h1, h2]
    have hsub : List.Sublist ((rankedSurvivors ref cands minScore).filter
        (fun r => decide (r.compatibility_info.overall.score = s)))
        (findCompatibleTracks ref cands minScore) := by
      rw [findCompatibleTracks_eq]
      exact List.sublist_mergeSort htrans htotal hpair (List.filter_sublist _)
    have hfs : ((rankedSurvivors ref cands minScore).filter
        (fun r => decide (r.compatibility_info.overall.score = s))).filter
        (fun r => decide (r.compatibility_info.overall.score = s)) =
        (rankedSurvivors ref cands minScore).filter
          (fun r => decide (r.compatibility_info.overall.score = s)) := by
      apply List.filter_eq_self.mpr
      intro a ha
      simpa using hall a ha
    have hsubP := hsub.filter (fun r => decide (r.compatibility_info.overall.score = s))
    rw [hfs] at hsubP
    have hlen : ((findCompatibleTracks ref cands minScore).filter
        (fun r => decide (r.compatibility_info.overall.score = s))).length =
        ((rankedSurvivors ref cands minScore).filter
          (fun r => decide (r.compatibility_info.overall.score = s))).length :=
      (hperm.filter _).length_eq
    exact (hsubP.eq_of_length hlen.symm).symm
  · intro hnil
    rw [hnil] at hperm
    exact hperm.eq_nil
  · intro h0
    subst h0
    rw [hperm.length_eq, rankedSurvivors, List.length_map]
    rw [List.filter_eq_self.mpr]
    intro t ht
    simpa using overallScore_nonneg _ _

/-- Witness for C5: a concrete ranking with `minScore = 0` keeps all three
candidates. -/
theorem findCompatibleTracks_spec_witness :
    (findCompatibleTracks (⟨some ⟨some "C Major", some "120"⟩, 0⟩ : Track Nat)
      [⟨some ⟨some "C Major", some "120"⟩, 1⟩, ⟨some ⟨some "G Major", some "122"⟩, 2⟩,
       ⟨some ⟨some "F# Major", some "180"⟩, 3⟩] 0).length = 3 :=
  (findCompatibleTracks_spec (⟨some ⟨some "C Major", some "120"⟩, 0⟩ : Track Nat)
    [⟨some ⟨some "C Major", some "120"⟩, 1⟩, ⟨some ⟨some "G Major", some "122"⟩, 2⟩,
     ⟨some ⟨some "F# Major", some "180"⟩, 3⟩] 0).2.2.2.2 rfl
/-- Counterexample to C3 as stated: the lowercase input `"c"` does not match
the claimed uppercase-letter grammar, yet `parseKey` accepts it. -/
theorem parseKey_lowercase_counterexample :
    (parseKey (some "c")).isValid = true ∧ claimGrammar (jsTrim "c").data = false := by
  decide

theorem matchAfterNote_isSome (note rest : List Char) :
    (matchAfterNote note rest).isSome = grammarTail rest := by
  simp only [matchAfterNote, grammarTail]
  split
  · simp [*]
  · split <;> simp [*]

theorem isModeToken_cons_accidental (d : Char) (rest : List Char)
    (hd : isAccidental d = true) : isModeToken (d :: rest) = false := by
  have hdc : (d = '#' ∨ d = 'b') ∨ d = 'B' := by
    simpa [isAccidental] using hd
  rcases hdc with (rfl | rfl) | rfl <;>
    simp [isModeToken, lowerStr, show Char.toLower '#' = '#' from by decide,
      show Char.toLower 'b' = 'b' from by decide, show Char.toLower 'B' = 'b' from by decide]

theorem grammarTail_cons_accidental (d : Char) (rest : List Char)
    (hd : isAccidental d = true) : grammarTail (d :: rest) = false := by
  have hds := isAccidental_not_space d hd
  simp [grammarTail, List.dropWhile_cons, hds, isModeToken_cons_accidental d rest hd]

theorem matchKeyPattern_isSome_eq (cs : List Char) :
    (matchKeyPattern cs).isSome = amendedGrammar cs := by
  match cs with
  | [] => rfl
  | [c] =>
    simp only [matchKeyPattern, amendedGrammar]
    by_cases hc : isKeyLetter c = true
    · rw [if_pos hc, hc, matchAfterNote_isSome]
      simp [grammarTail]
    · rw [if_neg hc, Bool.eq_false_iff.mpr hc]
      simp
  | c :: d :: rest2 =>
    simp only [matchKeyPattern, amendedGrammar]
    by_cases hc : isKeyLetter c = true
    case neg =>
      rw [if_neg hc, Bool.eq_false_iff.mpr hc]
      simp
    rw [if_pos hc, hc, Bool.true_and]
    by_cases hd : isAccidental d = true
    · rw [if_pos hd, hd, matchAfterNote_isSome, grammarTail_cons_accidental d rest2 hd]
      simp
    · rw [if_neg hd, Bool.eq_false_iff.mpr hd, matchAfterNote_isSome]
      simp

/-- **C3 (amended)** `parseKey` accepts exactly the case-insensitive grammar
(the regex carries the `i` flag): after trimming, a letter `A`–`G` in either
case, optionally `#`, `b` or `B`, optionally whitespace and a case-insensitive
mode token; empty input and the sentinel `"Unknown"` are rejected, and every
rejected input yields `isValid = false` with no key and no circle position. -/
theorem parseKey_valid_iff_amendedGrammar (s : String) :
    ((parseKey (some s)).isValid = true ↔
      (¬ s = "" ∧ ¬ s = "Unknown" ∧ amendedGrammar (jsTrim s).data = true)) ∧
    ((parseKey (some s)).isValid = false →
      (parseKey (some s)).key = none ∧ (parseKey (some s)).circlePosition = none) := by
  constructor
  · constructor
    · intro h
      have hne1 : ¬ s = "" := by
        intro hc
        simp [parseKey, hc, invalidParsedKey] at h
      have hne2 : ¬ s = "Unknown" := by
        intro hc
        simp [parseKey, hc, invalidParsedKey] at h
      refine ⟨hne1, hne2, ?_⟩
      rw [← matchKeyPattern_isSome_eq]
      rcases em : matchKeyPattern (jsTrim s).data with _ | nm
      · exfalso
        simp [parseKey, hne1, hne2, em, invalidParsedKey] at h
      · rfl
    · rintro ⟨hne1, hne2, hg⟩
      rw [← matchKeyPattern_isSome_eq] at hg
      rcases em : matchKeyPattern (jsTrim s).data with _ | ⟨noteRaw, modeRaw⟩
      · rw [em] at hg
        cases hg
      · simp [parseKey, hne1, hne2, em]
  · intro hf
    by_cases h0 : s = ""
    · simp [parseKey, h0, invalidParsedKey]
    by_cases h1 : s = "Unknown"
    · simp [parseKey, h1, invalidParsedKey]
    rcases em : matchKeyPattern (jsTrim s).data with _ | ⟨noteRaw, modeRaw⟩
    · simp [parseKey, h0, h1, em, invalidParsedKey]
    · exfalso
      have hv : (parseKey (some s)).isValid = true := by
        simp [parseKey, h0, h1, em]
      rw [hf] at hv
      cases hv

/-- Witness for the amended C3 at a concrete accepted and a concrete
rejected input. -/
theorem parseKey_valid_iff_amendedGrammar_witness :
    (parseKey (some "F# minor")).isValid = true ∧
      (parseKey (some "H Major")).isValid = false :=
  ⟨((parseKey_valid_iff_amendedGrammar "F# minor").1).mpr
      ⟨by decide, by decide, by decide⟩,
   by
    have h := (parseKey_valid_iff_amendedGrammar "H Major").1
    rw [Bool.eq_false_iff]
    intro hc
    have := h.mp hc
    revert this
    decide⟩
end Intune
